import Mathlib

/-
Verification of the Veilon trading core against its specification.

The Python sources are shallowly embedded:
  * monetary values (Python floats holding equity/balance/thresholds) are
    modelled as rationals;
  * timestamps are modelled as natural-number seconds (integers where a
    subtraction can go negative);
  * database tables are modelled as lists of typed rows, and SQL statements
    as the corresponding list operations;
  * in-memory Python dicts are modelled as functions into Option.
Names follow the source (veilon_core/services) wherever Lean allows it.
-/

namespace Veilon

/-! ## Rule engine: `monitoring_engine.py`, class `EvaluationMonitor`

A `Bar` is a row of the `equity_ohlc_1min` table restricted to one
`metaapi_account_id` and to `bar_time >= period_start` (the WHERE clause
shared by all three queries of the engine).  `open` is a Lean keyword, so
the column is called `open_`. -/

structure Bar where
  bar_time : ℕ
  open_ : ℚ
  high : ℚ
  low : ℚ
  close : ℚ
deriving DecidableEq

/-- The decisions `check_account` can return (besides Python `None`). -/
inductive Decision where
  | profit_target
  | drawdown_breach
deriving DecidableEq

namespace EvaluationMonitor

/-- `ORDER BY bar_time ASC LIMIT 1`: a row with minimal `bar_time`
(the first such row in list order when several share the minimum). -/
def first_bar : List Bar → Option Bar
  | [] => none
  | b :: rest =>
    match first_bar rest with
    | none => some b
    | some c => if c.bar_time < b.bar_time then some c else some b

/-- `get_period_baseline` (monitoring_engine.py lines 84-107): the `open`
of the first OHLC bar after period start, `None` when no bars exist. -/
def get_period_baseline (bars : List Bar) : Option ℚ :=
  (first_bar bars).map (fun b => b.open_)

/-- `get_period_high_low` (lines 137-163): `MAX(high)` and `MIN(low)` over
all bars of the period; the SQL aggregate is NULL on an empty table, which
the Python turns into `None`. -/
def get_period_high_low (bars : List Bar) : Option (ℚ × ℚ) :=
  match bars with
  | [] => none
  | b :: rest =>
    some (rest.foldl (fun acc x => max acc x.high) b.high,
          rest.foldl (fun acc x => min acc x.low) b.low)

/-- `check_account` (lines 165-233).  The two `*_pct_db` arguments are the
raw `plan_specifications` values (`10.00` meaning 10%), divided by 100
inside, exactly as in the source.  `if not baseline` in Python is true for
both `None` and `0.0`, hence the explicit zero test.  The call to
`get_latest_ohlc` (lines 204-215) only feeds a debug log line and is
omitted: it does not influence the returned value. -/
def check_account (bars : List Bar)
    (profit_target_pct_db max_drawdown_pct_db : ℚ) : Option Decision :=
  let profit_target_pct := profit_target_pct_db / 100
  let max_drawdown_pct := max_drawdown_pct_db / 100
  match get_period_baseline bars with
  | none => none
  | some baseline =>
    if baseline = 0 then none
    else
      match get_period_high_low bars with
      | none => none
      | some (period_high, period_low) =>
        let high_gain_pct := (period_high - baseline) / baseline
        let low_gain_pct := (period_low - baseline) / baseline
        if profit_target_pct ≤ high_gain_pct then some Decision.profit_target
        else if low_gain_pct ≤ -max_drawdown_pct then some Decision.drawdown_breach
        else none

end EvaluationMonitor

/-- Claim C1: for an account whose period baseline `b` is present and
positive and whose period-wide extrema are `H = max(high)` and
`L = min(low)`, `check_account` returns `profit_target` when
`(H - b)/b ≥ profit_target_pct`, else `drawdown_breach` when
`(L - b)/b ≤ -max_drawdown_pct`, else `None`; the profit-target test is
evaluated first, so it wins when both thresholds are crossed. -/
theorem c1_check_account_decision
    (bars : List Bar) (ptdb dddb b H L : ℚ)
    (hb : EvaluationMonitor.get_period_baseline bars = some b)
    (hpos : 0 < b)
    (hHL : EvaluationMonitor.get_period_high_low bars = some (H, L)) :
    EvaluationMonitor.check_account bars ptdb dddb =
      (if ptdb / 100 ≤ (H - b) / b then some Decision.profit_target
       else if (L - b) / b ≤ -(dddb / 100) then some Decision.drawdown_breach
       else none) ∧
    (ptdb / 100 ≤ (H - b) / b → (L - b) / b ≤ -(dddb / 100) →
      EvaluationMonitor.check_account bars ptdb dddb = some Decision.profit_target) := by
  have hmain : EvaluationMonitor.check_account bars ptdb dddb =
      (if ptdb / 100 ≤ (H - b) / b then some Decision.profit_target
       else if (L - b) / b ≤ -(dddb / 100) then some Decision.drawdown_breach
       else none) := by
    unfold EvaluationMonitor.check_account
    rw [hb, hHL]
    simp [hpos.ne']
  refine ⟨hmain, fun h1 _ => ?_⟩
  rw [hmain, if_pos h1]

/-- Witness for C1 at a concrete input: baseline 10000 (open of the first bar),
a period high of 11050 (gain 0.105 ≥ 0.10) and a period low of 9500, with
plan thresholds stored as 10.00; the engine returns `profit_target` even
though the close of the last bar fell back to 10200. -/
theorem c1_check_account_decision_witness :
    EvaluationMonitor.check_account
      [⟨0, 10000, 10100, 9900, 10050⟩, ⟨60, 10050, 11050, 9500, 10200⟩] 10 10 =
      (if (10 : ℚ) / 100 ≤ ((11050 : ℚ) - 10000) / 10000 then some Decision.profit_target
       else if ((9500 : ℚ) - 10000) / 10000 ≤ -((10 : ℚ) / 100) then some Decision.drawdown_breach
       else none) :=
  (c1_check_account_decision
      [⟨0, 10000, 10100, 9900, 10050⟩, ⟨60, 10050, 11050, 9500, 10200⟩]
      10 10 10000 11050 9500 (by decide) (by decide) (by decide)).1

/-- Claim C10: a period baseline of exactly `0` is treated the same as a
missing baseline (`if not baseline` in Python): the account is skipped
with no decision, and the divisions by the baseline are reached only when
the baseline is present and nonzero. -/
theorem c10_zero_baseline_skipped (bars : List Bar) (ptdb dddb : ℚ) :
    (EvaluationMonitor.get_period_baseline bars = some 0 →
      EvaluationMonitor.check_account bars ptdb dddb = none) ∧
    (EvaluationMonitor.check_account bars ptdb dddb ≠ none →
      ∃ b, EvaluationMonitor.get_period_baseline bars = some b ∧ b ≠ 0) := by
  constructor
  · intro h0
    unfold EvaluationMonitor.check_account
    rw [h0]
    simp
  · intro hne
    unfold EvaluationMonitor.check_account at hne
    cases hb : EvaluationMonitor.get_period_baseline bars with
    | none => rw [hb] at hne; simp at hne
    | some b =>
      rw [hb] at hne
      by_cases hz : b = 0
      · simp [hz] at hne
      · exact ⟨b, rfl, hz⟩

/-- Witness for C10: a single bar whose open is `0.0` makes
`check_account` skip the account. -/
theorem c10_zero_baseline_skipped_witness :
    EvaluationMonitor.check_account [⟨0, 0, 100, -100, 50⟩] 10 10 = none :=
  (c10_zero_baseline_skipped [⟨0, 0, 100, -100, 50⟩] 10 10).1 (by decide)

/-! ## OHLC aggregator: `equity_stream_manager.py`, class `OHLCAggregator`

The in-memory bar dict `_current_bars` is keyed by
`f"{metaapi_account_id}:{bar_time.isoformat()}"`; for a single account the
key degenerates to the minute-aligned bar time, so the state is a function
from bar time (seconds) to an optional bar. -/

/-- One value of the `_current_bars` dict / one row of `equity_ohlc_1min`
(the account id and bar time live in the key). -/
structure OHLCBar where
  open_ : ℚ
  high : ℚ
  low : ℚ
  close : ℚ
deriving DecidableEq

namespace OHLCAggregator

/-- `timestamp.replace(second=0, microsecond=0)`: round a timestamp down
to its minute. -/
def minute_floor (t : ℕ) : ℕ := 60 * (t / 60)

/-- In-memory bar state of one account: `_current_bars` restricted to one
`metaapi_account_id`. -/
def Bars : Type := ℕ → Option OHLCBar

/-- `process_tick` (equity_stream_manager.py lines 292-321).  Takes the
current bar map, the tick value, the timestamp of the tick and the wall clock
`now` read inside the method; returns the new map together with the list
of bars persisted immediately (the `now - bar_time >= 1 minute` branch,
which deletes the bar from the map after persisting it). -/
def process_tick (bars : Bars) (equity : ℚ) (timestamp now : ℕ) :
    Bars × List (ℕ × OHLCBar) :=
  let bar_time := minute_floor timestamp
  let new_bar : OHLCBar :=
    match bars bar_time with
    | none => ⟨equity, equity, equity, equity⟩
    | some bar => ⟨bar.open_, max bar.high equity, min bar.low equity, equity⟩
  if bar_time + 60 ≤ now then
    (fun k => if k = bar_time then none else bars k, [(bar_time, new_bar)])
  else
    (fun k => if k = bar_time then some new_bar else bars k, [])

/-- Run a tick sequence through `process_tick`.  Each tick is processed at
a wall clock equal to its own timestamp: the listener
(`on_equity_or_balance_updated`, lines 433-459) stamps every tick with
`datetime.now(timezone.utc)` just before calling `process_tick`. -/
def run_ticks (bars : Bars) : List (ℚ × ℕ) → Bars
  | [] => bars
  | (v, t) :: rest => run_ticks (process_tick bars v t t).1 rest

/-- Folding one tick value into an optional bar: the create-or-update step
of `process_tick`, isolated for the statement of the aggregation lemma. -/
def fold_tick (ob : Option OHLCBar) (v : ℚ) : OHLCBar :=
  match ob with
  | none => ⟨v, v, v, v⟩
  | some bar => ⟨bar.open_, max bar.high v, min bar.low v, v⟩

theorem lt_minute_floor_add (t : ℕ) : t < minute_floor t + 60 := by
  have h1 := Nat.div_add_mod t 60
  have h2 : t % 60 < 60 := Nat.mod_lt _ (by norm_num)
  unfold minute_floor
  omega

theorem minute_floor_eq_iff (M t : ℕ) (hM : M % 60 = 0) :
    minute_floor t = M ↔ M ≤ t ∧ t < M + 60 := by
  unfold minute_floor
  omega

/-- The tick values that fall into the minute bucket `M`, in processing
order. -/
def window_values (M : ℕ) (ticks : List (ℚ × ℕ)) : List ℚ :=
  (ticks.filter (fun p => decide (minute_floor p.2 = M))).map Prod.fst

theorem run_ticks_lookup (ticks : List (ℚ × ℕ)) (bars : Bars) (M : ℕ) :
    run_ticks bars ticks M =
      (window_values M ticks).foldl (fun ob v => some (fold_tick ob v)) (bars M) := by
  induction ticks generalizing bars with
  | nil => rfl
  | cons p rest ih =>
    obtain ⟨v, t⟩ := p
    have hnow : ¬ (minute_floor t + 60 ≤ t) := by
      have := lt_minute_floor_add t
      omega
    have hstep : (process_tick bars v t t).1 =
        fun k => if k = minute_floor t then some (fold_tick (bars (minute_floor t)) v)
                 else bars k := by
      unfold process_tick
      rw [if_neg hnow]
      cases h : bars (minute_floor t) <;> simp [fold_tick, h]
    show run_ticks (process_tick bars v t t).1 rest M = _
    rw [ih, hstep]
    simp only [window_values, List.filter_cons]
    by_cases hM : minute_floor t = M
    · subst hM
      simp
    · have hM2 : ¬ (M = minute_floor t) := fun h => hM h.symm
      simp [hM, hM2]

theorem foldl_fold_tick_some (vs : List ℚ) (b : OHLCBar) :
    vs.foldl (fun ob v => some (fold_tick ob v)) (some b) =
      some ⟨b.open_, vs.foldl max b.high, vs.foldl min b.low,
            vs.foldl (fun _ x => x) b.close⟩ := by
  induction vs generalizing b with
  | nil => rfl
  | cons v vs ih =>
    simp only [List.foldl_cons]
    rw [ih]
    rfl

end OHLCAggregator

/-- Claim C2: for any finite tick sequence of one account (each tick
timestamped with the wall clock at processing time, as the listener does),
the in-memory bar for minute `M` satisfies: open = value of the first tick
processed whose timestamp falls in `[M, M+60)`, high = maximum of all tick
values in that window, low = minimum, close = value of the last tick
processed in that window — for every arrival order of values and
timestamps. -/
theorem c2_ohlc_bar_aggregation (ticks : List (ℚ × ℕ)) (M : ℕ) (v : ℚ) (vs : List ℚ)
    (hM : M % 60 = 0)
    (hwin : (ticks.filter (fun p => decide (M ≤ p.2 ∧ p.2 < M + 60))).map Prod.fst
      = v :: vs) :
    OHLCAggregator.run_ticks (fun _ => none) ticks M =
      some ⟨v, vs.foldl max v, vs.foldl min v, vs.foldl (fun _ x => x) v⟩ := by
  have hfilter : ticks.filter (fun p => decide (OHLCAggregator.minute_floor p.2 = M))
      = ticks.filter (fun p => decide (M ≤ p.2 ∧ p.2 < M + 60)) := by
    apply List.filter_congr
    intro p _
    simp [OHLCAggregator.minute_floor_eq_iff M p.2 hM]
  rw [OHLCAggregator.run_ticks_lookup]
  unfold OHLCAggregator.window_values
  rw [hfilter, hwin]
  simp only [List.foldl_cons]
  have : OHLCAggregator.fold_tick none v = ⟨v, v, v, v⟩ := rfl
  rw [this, OHLCAggregator.foldl_fold_tick_some]

/-- A tick sequence used to evaluate the aggregation claim: three ticks in
minute 0 (out of value order) and one in minute 1. -/
def demo_ticks : List (ℚ × ℕ) := [(100, 10), (105, 50), (95, 59), (102, 70)]

/-- Witness for C2: on `demo_ticks`, the minute-0 window holds the values
`[100, 105, 95]`, and the in-memory bar for minute 0 is
open 100, high 105, low 95, close 95. -/
theorem c2_ohlc_bar_aggregation_witness :
    ((0 : ℕ) % 60 = 0 ∧
      (demo_ticks.filter (fun p => decide (0 ≤ p.2 ∧ p.2 < 0 + 60))).map Prod.fst
        = 100 :: [105, 95]) ∧
    OHLCAggregator.run_ticks (fun _ => none) demo_ticks 0 =
      some ⟨100, [(105 : ℚ), 95].foldl max 100, [(105 : ℚ), 95].foldl min 100,
            [(105 : ℚ), 95].foldl (fun _ x => x) 100⟩ :=
  ⟨⟨by decide, by decide⟩,
    c2_ohlc_bar_aggregation demo_ticks 0 100 [105, 95] (by decide) (by decide)⟩

/-! ## Bar persistence: `OHLCAggregator._persist_bar`

The durable table `equity_ohlc_1min` is keyed by
`(metaapi_account_id, bar_time)`; the insert runs
`ON CONFLICT (metaapi_account_id, bar_time) DO UPDATE SET
 high = GREATEST(existing.high, EXCLUDED.high),
 low = LEAST(existing.low, EXCLUDED.low), close = EXCLUDED.close`
(lines 334-339); the stored `open` is never in the update list. -/

/-- The durable OHLC store, keyed by `(metaapi_account_id, bar_time)`. -/
def OHLCStore : Type := String × ℕ → Option OHLCBar

namespace OHLCAggregator

/-- The upsert of `_persist_bar` (lines 323-355) on the stored table (the
follow-up `current_profit` cache refresh touches the `accounts` table
only, not this store). -/
def persist_bar (store : OHLCStore) (key : String × ℕ) (bar : OHLCBar) : OHLCStore :=
  fun k =>
    if k = key then
      match store key with
      | none => some bar
      | some old => some ⟨old.open_, max old.high bar.high, min old.low bar.low, bar.close⟩
    else store k

end OHLCAggregator

/-- Claim C8: flushing a bar is an upsert that, against an already-stored
bar for the same `(account, bar_time)` key, never lowers the stored high,
never raises the stored low (high widened via max, low via min),
overwrites close with the new value and never modifies the stored open;
re-flushing the same bar is idempotent on high and low. -/
theorem c8_persist_bar_upsert (store : OHLCStore) (key : String × ℕ) (bar old : OHLCBar)
    (hold : store key = some old) :
    OHLCAggregator.persist_bar store key bar key =
      some ⟨old.open_, max old.high bar.high, min old.low bar.low, bar.close⟩ ∧
    (∀ newb, OHLCAggregator.persist_bar store key bar key = some newb →
      old.high ≤ newb.high ∧ newb.low ≤ old.low ∧
      newb.close = bar.close ∧ newb.open_ = old.open_) ∧
    (∀ b1 b2,
      OHLCAggregator.persist_bar store key bar key = some b1 →
      OHLCAggregator.persist_bar (OHLCAggregator.persist_bar store key bar) key bar key
        = some b2 →
      b2.high = b1.high ∧ b2.low = b1.low) := by
  have h1 : OHLCAggregator.persist_bar store key bar key =
      some ⟨old.open_, max old.high bar.high, min old.low bar.low, bar.close⟩ := by
    unfold OHLCAggregator.persist_bar
    rw [if_pos rfl, hold]
  have h2 : OHLCAggregator.persist_bar (OHLCAggregator.persist_bar store key bar) key bar key
      = some ⟨old.open_, max (max old.high bar.high) bar.high,
              min (min old.low bar.low) bar.low, bar.close⟩ := by
    conv_lhs => rw [OHLCAggregator.persist_bar]
    rw [if_pos rfl, h1]
  refine ⟨h1, ?_, ?_⟩
  · intro newb hnew
    rw [h1] at hnew
    cases hnew
    exact ⟨le_max_left _ _, min_le_left _ _, rfl, rfl⟩
  · intro b1 b2 hb1 hb2
    rw [h1] at hb1
    rw [h2] at hb2
    cases hb1
    cases hb2
    constructor
    · simp [max_assoc]
    · simp [min_assoc]

/-- Witness for C8: against a stored bar `⟨10000, 10100, 9900, 10050⟩`,
flushing `⟨10050, 10040, 9950, 10020⟩` widens nothing downward: the result
keeps open 10000, high 10100, low 9900 and takes close 10020. -/
theorem c8_persist_bar_upsert_witness :
    OHLCAggregator.persist_bar (fun _ => some ⟨10000, 10100, 9900, 10050⟩)
        ("A", 0) ⟨10050, 10040, 9950, 10020⟩ ("A", 0) =
      some ⟨10000, max 10100 10040, min 9900 9950, 10020⟩ :=
  (c8_persist_bar_upsert (fun _ => some ⟨10000, 10100, 9900, 10050⟩) ("A", 0)
      ⟨10050, 10040, 9950, 10020⟩ ⟨10000, 10100, 9900, 10050⟩ rfl).1

/-! ## Equity monitor: `equity_stream_manager.py`, class `EquityMonitor`

This is the class wired into the stream pipeline (the manager instantiates
it at line 490).  A near-identical copy in `equity_monitor.py` is never
imported anywhere in the repository; unlike the live class it lacks the
`first_equity > 0` guard. -/

/-- The numeric fields of `AccountMetrics` (lines 26-38); the account id,
period start and `last_updated` timestamp carry no computation and are
omitted. -/
structure AccountMetrics where
  first_equity : ℚ
  current_equity : ℚ
  peak_equity : ℚ
  trough_equity : ℚ
  current_gain_pct : ℚ
  peak_gain_pct : ℚ
  trough_gain_pct : ℚ
  current_drawdown_pct : ℚ
deriving DecidableEq

namespace EquityMonitor

/-- The metrics record created when an account is first seen (lines
145-157, and `initialize_account`): every equity field is the value of the
first tick and every percentage is zero. -/
def init_metrics (equity : ℚ) : AccountMetrics :=
  ⟨equity, equity, equity, equity, 0, 0, 0, 0⟩

/-- The per-tick update of `process_tick` (lines 160-190): current equity,
gain guarded by `first_equity > 0`, peak/trough on strict new high/low,
and the balance-based drawdown. -/
def update_metrics (m : AccountMetrics) (equity : ℚ) : AccountMetrics :=
  let current_gain_pct :=
    if 0 < m.first_equity then (equity - m.first_equity) / m.first_equity else 0
  { first_equity := m.first_equity
    current_equity := equity
    peak_equity := if m.peak_equity < equity then equity else m.peak_equity
    peak_gain_pct := if m.peak_equity < equity then current_gain_pct else m.peak_gain_pct
    trough_equity := if equity < m.trough_equity then equity else m.trough_equity
    trough_gain_pct :=
      if equity < m.trough_equity then current_gain_pct else m.trough_gain_pct
    current_gain_pct := current_gain_pct
    current_drawdown_pct := if current_gain_pct < 0 then |current_gain_pct| else 0 }

/-- `process_tick` (lines 118-193) for one account: lazy-initialize on the
first tick (the code then falls through and updates the fresh record with
that same tick), otherwise update the stored record. -/
def process_tick (state : Option AccountMetrics) (equity : ℚ) : AccountMetrics :=
  match state with
  | none => update_metrics (init_metrics equity) equity
  | some m => update_metrics m equity

/-- Feed a tick sequence through `process_tick`. -/
def run_ticks : Option AccountMetrics → List ℚ → Option AccountMetrics
  | st, [] => st
  | st, v :: rest => run_ticks (some (process_tick st v)) rest

end EquityMonitor

/-- Claim C4: on every tick with recorded `first_equity` `f`, the gain is
set to `(equity - f)/f` (0 when `f` is not greater than 0), peak/trough
and their gains move only on strict new highs/lows, and the drawdown is
`|gain|` when the gain is negative and 0 otherwise; feeding
`[100, 105, 95, 102]` from an empty state yields peak gain 0.05, trough
gain -0.05 and final drawdown 0. -/
theorem c4_equity_monitor_metrics :
    (∀ (m : AccountMetrics) (equity : ℚ),
      (EquityMonitor.update_metrics m equity).current_gain_pct =
        (if 0 < m.first_equity then (equity - m.first_equity) / m.first_equity else 0) ∧
      (m.peak_equity < equity →
        (EquityMonitor.update_metrics m equity).peak_equity = equity ∧
        (EquityMonitor.update_metrics m equity).peak_gain_pct =
          (EquityMonitor.update_metrics m equity).current_gain_pct) ∧
      (¬ m.peak_equity < equity →
        (EquityMonitor.update_metrics m equity).peak_equity = m.peak_equity ∧
        (EquityMonitor.update_metrics m equity).peak_gain_pct = m.peak_gain_pct) ∧
      (equity < m.trough_equity →
        (EquityMonitor.update_metrics m equity).trough_equity = equity ∧
        (EquityMonitor.update_metrics m equity).trough_gain_pct =
          (EquityMonitor.update_metrics m equity).current_gain_pct) ∧
      (¬ equity < m.trough_equity →
        (EquityMonitor.update_metrics m equity).trough_equity = m.trough_equity ∧
        (EquityMonitor.update_metrics m equity).trough_gain_pct = m.trough_gain_pct) ∧
      (EquityMonitor.update_metrics m equity).current_drawdown_pct =
        (if (EquityMonitor.update_metrics m equity).current_gain_pct < 0
         then |(EquityMonitor.update_metrics m equity).current_gain_pct| else 0)) ∧
    EquityMonitor.run_ticks none [100, 105, 95, 102] =
      some ⟨100, 102, 105, 95, 1/50, 1/20, -1/20, 0⟩ := by
  constructor
  · intro m equity
    refine ⟨rfl, fun h => ⟨?_, ?_⟩, fun h => ⟨?_, ?_⟩, fun h => ⟨?_, ?_⟩,
      fun h => ⟨?_, ?_⟩, rfl⟩ <;>
      simp [EquityMonitor.update_metrics, h]
  · norm_num [EquityMonitor.run_ticks, EquityMonitor.process_tick,
      EquityMonitor.update_metrics, EquityMonitor.init_metrics]

/-- Witness for C4 (the general conjunct instantiated): a tick of 105 on
metrics with first equity 100 and peak 100 is a strict new high, so the
peak gain becomes the current gain (105 - 100)/100. -/
theorem c4_equity_monitor_metrics_witness :
    (EquityMonitor.update_metrics ⟨100, 100, 100, 100, 0, 0, 0, 0⟩ 105).peak_equity = 105 ∧
    (EquityMonitor.update_metrics ⟨100, 100, 100, 100, 0, 0, 0, 0⟩ 105).peak_gain_pct =
      (EquityMonitor.update_metrics ⟨100, 100, 100, 100, 0, 0, 0, 0⟩ 105).current_gain_pct :=
  (c4_equity_monitor_metrics.1 ⟨100, 100, 100, 100, 0, 0, 0, 0⟩ 105).2.1 (by norm_num)

/-! ## Stream task loop: `EquityStreamManagerAsync._run` (lines 550-675)

One pass through the outer `while not stop_event.is_set()` body is
embedded as a transition on the mutable state of the loop, driven by which
of the loop exits fires this iteration.  `_recreate_sdk` (lines 500-504)
replaces `self.rm`/`self.api` wholesale; the embedding counts these
constructions with a generation number so that "a distinct construction
event" is observable.  The `await detach_listener()` calls and sleeps
carry no state relevant to the claims and are elided from the trace. -/

/-- The loop-local state of `_run`: `consecutive_failures`, `backoff` and
the generation of the SDK connection object currently held by the
manager. -/
structure StreamState where
  consecutive_failures : ℕ
  backoff : ℚ
  sdk_generation : ℕ
deriving DecidableEq

/-- Observable events of one loop iteration.  `attach_attempt` records the
SDK generation used and the failure counter and backoff in force at the
moment `add_equity_balance_listener` is awaited. -/
inductive StreamEvent where
  | sdk_recreated (generation : ℕ)
  | attach_attempt (generation : ℕ) (failures : ℕ) (backoff : ℚ)
  | attach_ok
deriving DecidableEq

/-- How one iteration of the `_run` loop body ends. -/
inductive IterOutcome where
  /-- `add_equity_balance_listener` timed out after 20s
  (`except asyncio.TimeoutError`, lines 657-662). -/
  | attach_timeout
  /-- any other exception in the body (lines 667-672). -/
  | runner_error
  /-- attach succeeded but `connected_event` was not set within 30s
  (lines 621-633). -/
  | connect_timeout
  /-- watchdog: no tick for 120s (lines 643-648). -/
  | watchdog_stale
  /-- watchdog: `disconnected_event` set (lines 650-653). -/
  | disconnect_seen
  /-- watchdog loop left because `stop_event` was set. -/
  | stop_requested
deriving DecidableEq

namespace StreamRunner

def max_failures_before_sdk_reset : ℕ := 3

def backoff_max : ℚ := 60

/-- One pass through the body of the outer while loop of `_run`.  The backoff
sleep in the exception handlers multiplies the capped backoff by a jitter
factor in `[0.8, 1.2]` before sleeping; the stored `backoff` variable
itself is updated exactly as below. -/
def run_iteration (s : StreamState) (out : IterOutcome) : StreamState × List StreamEvent :=
  let (s1, ev1) :=
    if max_failures_before_sdk_reset ≤ s.consecutive_failures then
      ({ consecutive_failures := 0, backoff := 2, sdk_generation := s.sdk_generation + 1 },
       [StreamEvent.sdk_recreated (s.sdk_generation + 1)])
    else (s, [])
  let attach_ev := StreamEvent.attach_attempt s1.sdk_generation s1.consecutive_failures s1.backoff
  match out with
  | IterOutcome.attach_timeout =>
      ({ s1 with consecutive_failures := s1.consecutive_failures + 1,
                 backoff := min (s1.backoff * 2) backoff_max },
       ev1 ++ [attach_ev])
  | IterOutcome.runner_error =>
      ({ s1 with consecutive_failures := s1.consecutive_failures + 1,
                 backoff := min (s1.backoff * 2) backoff_max },
       ev1 ++ [attach_ev])
  | IterOutcome.connect_timeout =>
      -- attach succeeded: failures reset to 0, backoff to 2 (lines 610-612),
      -- then the missed connection event adds one failure (line 630)
      ({ s1 with consecutive_failures := 1, backoff := 2 },
       ev1 ++ [attach_ev, StreamEvent.attach_ok])
  | IterOutcome.watchdog_stale =>
      ({ s1 with consecutive_failures := 1, backoff := 2 },
       ev1 ++ [attach_ev, StreamEvent.attach_ok])
  | IterOutcome.disconnect_seen =>
      ({ s1 with consecutive_failures := 1, backoff := 2 },
       ev1 ++ [attach_ev, StreamEvent.attach_ok])
  | IterOutcome.stop_requested =>
      ({ s1 with consecutive_failures := 0, backoff := 2 },
       ev1 ++ [attach_ev, StreamEvent.attach_ok])

end StreamRunner

/-- Claim C5: whenever the consecutive-failure counter has reached 3 at
the top of the loop, the iteration recreates the SDK connection first, and
every attach attempt of that iteration runs on the freshly recreated
connection (generation bumped by one) with the failure counter reset to 0
and the backoff reset to its initial 2 seconds. -/
theorem c5_sdk_reset_before_attach (s : StreamState) (out : IterOutcome)
    (h3 : 3 ≤ s.consecutive_failures) :
    (StreamRunner.run_iteration s out).2.head? =
      some (StreamEvent.sdk_recreated (s.sdk_generation + 1)) ∧
    (∀ g f b, StreamEvent.attach_attempt g f b ∈ (StreamRunner.run_iteration s out).2 →
      g = s.sdk_generation + 1 ∧ f = 0 ∧ b = 2) := by
  have hcond : StreamRunner.max_failures_before_sdk_reset ≤ s.consecutive_failures := h3
  cases out <;>
    simp_all [StreamRunner.run_iteration, StreamRunner.max_failures_before_sdk_reset]

/-- Witness for C5: from failures = 3, backoff = 60, generation 0, an
iteration ending in an attach timeout first recreates the SDK (generation
1) and attaches with failures 0 and backoff 2. -/
theorem c5_sdk_reset_before_attach_witness :
    (StreamRunner.run_iteration ⟨3, 60, 0⟩ IterOutcome.attach_timeout).2.head? =
      some (StreamEvent.sdk_recreated 1) ∧
    ((1 : ℕ) = 0 + 1 ∧ (0 : ℕ) = 0 ∧ (2 : ℚ) = 2) :=
  ⟨(c5_sdk_reset_before_attach ⟨3, 60, 0⟩ IterOutcome.attach_timeout (by norm_num)).1,
   (c5_sdk_reset_before_attach ⟨3, 60, 0⟩ IterOutcome.attach_timeout (by norm_num)).2
     1 0 2 (by simp [StreamRunner.run_iteration, StreamRunner.max_failures_before_sdk_reset])⟩

/-! ## Stream manager bookkeeping: `EquityStreamManagerAsync` (lines 478-548)

`_streams` maps an account id to `(task, stop_event, listener_id)`; the
embedding keeps the task, identified by a serial number, and models
`task.done()` through an environment predicate `done`.  `next_task`
counts `asyncio.create_task` calls, so "no second task is created" is
observable. -/

structure ManagerState where
  streams : String → Option ℕ
  next_task : ℕ

namespace StreamManager

/-- `start_equity_stream` (lines 506-523): refuse when a not-done task
exists for the id, otherwise create a task and record it. -/
def start_equity_stream (done : ℕ → Bool) (m : ManagerState) (account_id : String) :
    Bool × ManagerState :=
  match m.streams account_id with
  | some task =>
    if done task = false then
      (false, m)
    else
      (true, { streams := fun k => if k = account_id then some m.next_task else m.streams k,
               next_task := m.next_task + 1 })
  | none =>
    (true, { streams := fun k => if k = account_id then some m.next_task else m.streams k,
             next_task := m.next_task + 1 })

/-- `stop_equity_stream` (lines 525-548): `False` for an unknown id,
otherwise signal/await/cancel the task and pop the entry. -/
def stop_equity_stream (m : ManagerState) (account_id : String) : Bool × ManagerState :=
  match m.streams account_id with
  | none => (false, m)
  | some _ =>
    (true, { m with streams := fun k => if k = account_id then none else m.streams k })

end StreamManager

/-- Claim C6: for an account id that already has a live (not-done) stream
task, `start_equity_stream` returns `false` and leaves the manager state
unchanged — in particular no task is created — so the map (one entry per
id by construction) keeps at most one live task per account id. -/
theorem c6_no_duplicate_stream (done : ℕ → Bool) (m : ManagerState)
    (account_id : String) (task : ℕ)
    (hlive : m.streams account_id = some task)
    (hnotdone : done task = false) :
    StreamManager.start_equity_stream done m account_id = (false, m) ∧
    (StreamManager.start_equity_stream done m account_id).2.next_task = m.next_task ∧
    (∀ k, (StreamManager.start_equity_stream done m account_id).2.streams k = m.streams k) := by
  have h : StreamManager.start_equity_stream done m account_id = (false, m) := by
    unfold StreamManager.start_equity_stream
    rw [hlive]
    simp [hnotdone]
  exact ⟨h, by rw [h], fun k => by rw [h]⟩

/-- A manager state with one live stream task (task 0) for account id
`"A"`, about to create task 1 next. -/
def demo_manager : ManagerState :=
  { streams := fun k => if k = "A" then some 0 else none, next_task := 1 }

/-- An environment in which no task has finished. -/
def demo_done : ℕ → Bool := fun _ => false

/-- Witness for C6: a second start for `"A"` on `demo_manager` returns
`false` and changes nothing. -/
theorem c6_no_duplicate_stream_witness :
    StreamManager.start_equity_stream demo_done demo_manager "A" = (false, demo_manager) :=
  (c6_no_duplicate_stream demo_done demo_manager "A" 0 (by simp [demo_manager]) rfl).1

/-! ## Lifecycle manager: `improved_account_flow.py`,
class `ImprovedAccountLifecycleManager`

Tick timestamps use integers so that the 60-second SQL interval subtraction
needs no truncation. -/

/-- One row of `equity_balance_ticks` for the account under test. -/
structure Tick where
  ts : ℤ
  equity : ℚ
  balance : ℚ
deriving DecidableEq

namespace Lifecycle

/-- `ORDER BY ts DESC LIMIT 1` applied to a row list: a row of maximal
`ts` (the first such row in list order when several share it). -/
def pick_latest : List Tick → Option Tick
  | [] => none
  | t :: rest =>
    match pick_latest rest with
    | none => some t
    | some u => if t.ts < u.ts then some u else some t

/-- The query of `_is_account_flat` (lines 335-346): rows of the account
with ts newer than 60 seconds before NOW(), newest first, limit 1. -/
def latest_recent_tick (ticks : List Tick) (now : ℤ) : Option Tick :=
  pick_latest (ticks.filter (fun t => decide (now - 60 < t.ts)))

/-- `_is_account_flat` (lines 331-355): `False` without a recent row, else
flat iff the newest recent row has `abs(equity - balance) < 0.01`. -/
def is_account_flat (ticks : List Tick) (now : ℤ) : Bool :=
  match latest_recent_tick ticks now with
  | none => false
  | some t => decide (|t.equity - t.balance| < 1/100)

theorem pick_latest_spec (l : List Tick) :
    (∀ t, pick_latest l = some t → t ∈ l ∧ ∀ u ∈ l, u.ts ≤ t.ts) ∧
    (pick_latest l = none → l = []) := by
  induction l with
  | nil => exact ⟨fun t h => by simp [pick_latest] at h, fun _ => rfl⟩
  | cons a rest ih =>
    constructor
    · intro t ht
      unfold pick_latest at ht
      cases hrest : pick_latest rest with
      | none =>
        rw [hrest] at ht
        cases ht
        have hnil := ih.2 hrest
        subst hnil
        exact ⟨List.mem_singleton_self a, by simp⟩
      | some u =>
        rw [hrest] at ht
        dsimp only at ht
        have hu := ih.1 u hrest
        by_cases hlt : a.ts < u.ts
        · rw [if_pos hlt] at ht
          cases ht
          refine ⟨List.mem_cons_of_mem a hu.1, ?_⟩
          intro w hw
          rcases List.mem_cons.mp hw with hwa | hwr
          · subst hwa; exact le_of_lt hlt
          · exact hu.2 w hwr
        · rw [if_neg hlt] at ht
          cases ht
          refine ⟨List.mem_cons_self a rest, ?_⟩
          intro w hw
          rcases List.mem_cons.mp hw with hwa | hwr
          · subst hwa; exact le_rfl
          · exact le_trans (hu.2 w hwr) (not_lt.mp hlt)
    · intro h
      unfold pick_latest at h
      cases hrest : pick_latest rest with
      | none => rw [hrest] at h; cases h
      | some u => rw [hrest] at h; by_cases hlt : a.ts < u.ts <;> simp [hlt] at h

end Lifecycle

/-- Claim C7: the flatness check considers the account flat exactly when
the newest tick of the last 60 seconds satisfies
`abs(equity - balance) < 0.01`, and reports not-flat when no tick of the
last 60 seconds exists; `equity = 10000.00, balance = 10000.004` is flat
and `equity = 10000.00, balance = 10005.00` is not. -/
theorem c7_flatness_check :
    (∀ (ticks : List Tick) (now : ℤ),
      (Lifecycle.is_account_flat ticks now = true ↔
        ∃ t, Lifecycle.latest_recent_tick ticks now = some t ∧
          |t.equity - t.balance| < 1/100) ∧
      (∀ t, Lifecycle.latest_recent_tick ticks now = some t →
        t ∈ ticks ∧ now - 60 < t.ts ∧
        ∀ u ∈ ticks, now - 60 < u.ts → u.ts ≤ t.ts) ∧
      (Lifecycle.latest_recent_tick ticks now = none →
        ∀ t ∈ ticks, ¬ (now - 60 < t.ts))) ∧
    Lifecycle.is_account_flat [⟨50, 10000, 10000 + 4/1000⟩] 100 = true ∧
    Lifecycle.is_account_flat [⟨50, 10000, 10005⟩] 100 = false := by
  refine ⟨fun ticks now => ⟨?_, ?_, ?_⟩, ?_, ?_⟩
  · unfold Lifecycle.is_account_flat
    cases h : Lifecycle.latest_recent_tick ticks now with
    | none => simp
    | some t => simp [h]
  · intro t ht
    unfold Lifecycle.latest_recent_tick at ht
    have hspec := (Lifecycle.pick_latest_spec
      (ticks.filter (fun t => decide (now - 60 < t.ts)))).1 t ht
    have hmem := List.mem_filter.mp hspec.1
    refine ⟨hmem.1, by simpa using hmem.2, ?_⟩
    intro u hu hrec
    exact hspec.2 u (List.mem_filter.mpr ⟨hu, by simpa using hrec⟩)
  · intro hnone t hmem hrec
    unfold Lifecycle.latest_recent_tick at hnone
    have hnil := (Lifecycle.pick_latest_spec
      (ticks.filter (fun t => decide (now - 60 < t.ts)))).2 hnone
    have : t ∈ ticks.filter (fun t => decide (now - 60 < t.ts)) :=
      List.mem_filter.mpr ⟨hmem, by simpa using hrec⟩
    rw [hnil] at this
    cases this
  · norm_num [Lifecycle.is_account_flat, Lifecycle.latest_recent_tick,
      Lifecycle.pick_latest, List.filter]
    rw [abs_of_pos (by norm_num : (0 : ℚ) < 1/250)]
    norm_num
  · norm_num [Lifecycle.is_account_flat, Lifecycle.latest_recent_tick,
      Lifecycle.pick_latest, List.filter]

/-- Witness for C7: the two concrete flatness verdicts of the claim,
extracted from the theorem. -/
theorem c7_flatness_check_witness :
    Lifecycle.is_account_flat [⟨50, 10000, 10000 + 4/1000⟩] 100 = true ∧
    Lifecycle.is_account_flat [⟨50, 10000, 10005⟩] 100 = false :=
  ⟨c7_flatness_check.2.1, c7_flatness_check.2.2⟩

/-! ## `attempt_start_evaluation` (improved_account_flow.py lines 98-181)

The interaction of the method with the stream facade and the tick table is
embedded as a function of the manager state and an environment describing
what the database will show: whether a tick newer than 60 seconds appears
during the 30x1s poll (`data_arrives`, `_has_equity_data`), the tick rows
and wall clock at the flatness check, and the id the period insert would
return.  The success branch also creates a `trading_periods` row and sets
the account active; those writes live in the C3 database model and do not
affect the returned outcome. -/

/-- The result dict of `attempt_start_evaluation`.  Error messages keep
the literal source text where it is fixed; the open-positions message
interpolates the equity/balance figures. -/
structure AttemptOutcome where
  success : Bool
  error_message : Option String
  period_id : Option ℕ
deriving DecidableEq

/-- Environment of one `attempt_start_evaluation` call. -/
structure LifecycleEnv where
  data_arrives : Bool
  ticks : List Tick
  now : ℤ
  new_period_id : ℕ

namespace Lifecycle

/-- `attempt_start_evaluation` (lines 98-181), returning the result dict
and the stream-manager state it leaves behind. -/
def attempt_start_evaluation (done : ℕ → Bool) (m : ManagerState) (env : LifecycleEnv)
    (metaapi_account_id : String) : AttemptOutcome × ManagerState :=
  let (stream_started, m1) := StreamManager.start_equity_stream done m metaapi_account_id
  if stream_started = false then
    ({ success := false,
       error_message := some "Failed to start equity stream. Please try again.",
       period_id := none }, m1)
  else if env.data_arrives = false then
    ({ success := false,
       error_message := some "Could not connect to account. Please check your MT4/5 terminal is running and connected.",
       period_id := none },
     (StreamManager.stop_equity_stream m1 metaapi_account_id).2)
  else if is_account_flat env.ticks env.now = false then
    ({ success := false,
       error_message := some "Account has open positions. Please close all positions before starting.",
       period_id := none },
     (StreamManager.stop_equity_stream m1 metaapi_account_id).2)
  else
    ({ success := true, error_message := none, period_id := some env.new_period_id }, m1)

end Lifecycle

/-- An environment whose account is connected and flat: a fresh tick with
equity = balance = 10000 at time 50, clock at 100. -/
def demo_env : LifecycleEnv :=
  { data_arrives := true, ticks := [⟨50, 10000, 10000⟩], now := 100, new_period_id := 7 }

/-- A manager state with no streams. -/
def empty_manager : ManagerState := { streams := fun _ => none, next_task := 0 }

/-- Counterexample to claim C9 as stated: on `demo_manager` (a live stream
for `"A"`) with a connected, flat environment, `attempt_start_evaluation`
does not proceed to the fresh-data wait and flatness check — it fails with
the stream-start error — although the same environment with no pre-existing
stream succeeds. -/
theorem c9_counterexample :
    (Lifecycle.attempt_start_evaluation demo_done demo_manager demo_env "A").1 =
      ⟨false, some "Failed to start equity stream. Please try again.", none⟩ ∧
    (Lifecycle.attempt_start_evaluation demo_done empty_manager demo_env "A").1 =
      ⟨true, none, some 7⟩ := by
  constructor
  · norm_num [Lifecycle.attempt_start_evaluation, StreamManager.start_equity_stream,
      demo_manager, demo_done]
  · norm_num [Lifecycle.attempt_start_evaluation, StreamManager.start_equity_stream,
      empty_manager, demo_env, Lifecycle.is_account_flat, Lifecycle.latest_recent_tick,
      Lifecycle.pick_latest, List.filter]

/-- Claim C9 as amended: when a live (not-done) stream task already exists
for the account id, `start_equity_stream` returns `false` and
`attempt_start_evaluation` returns `success = false` with the
stream-start error message, leaving the manager unchanged; it reaches the
fresh-data wait and flatness check only when the stream was newly
started. -/
theorem c9_live_stream_aborts_start (done : ℕ → Bool) (m : ManagerState)
    (env : LifecycleEnv) (metaapi_account_id : String) (task : ℕ)
    (hlive : m.streams metaapi_account_id = some task)
    (hnotdone : done task = false) :
    Lifecycle.attempt_start_evaluation done m env metaapi_account_id =
      (⟨false, some "Failed to start equity stream. Please try again.", none⟩, m) := by
  have hstart : StreamManager.start_equity_stream done m metaapi_account_id = (false, m) := by
    unfold StreamManager.start_equity_stream
    rw [hlive]
    simp [hnotdone]
  unfold Lifecycle.attempt_start_evaluation
  rw [hstart]
  simp

/-- Witness for the amended C9 at the concrete counterexample state. -/
theorem c9_live_stream_aborts_start_witness :
    Lifecycle.attempt_start_evaluation demo_done demo_manager demo_env "A" =
      (⟨false, some "Failed to start equity stream. Please try again.", none⟩, demo_manager) :=
  c9_live_stream_aborts_start demo_done demo_manager demo_env "A" 0
    (by simp [demo_manager]) rfl

/-! ## Breach handling: `EvaluationMonitor.handle_drawdown_breach` and
`get_active_accounts` (monitoring_engine.py lines 41-82 and 334-388)

The relational store is modelled with the columns these two methods touch.
The stream stop (`_stop_stream`) and event insert (`_log_event`) are
recorded in the returned state so they are observable. -/

/-- A row of `accounts` (columns used by the two methods). -/
structure AccountRow where
  id : ℕ
  metaapi_account_id : String
  status : String
  is_enabled : Bool
  plan_id : ℕ
  closed_at : Option ℕ
deriving DecidableEq

/-- A row of `trading_periods`. -/
structure TradingPeriodRow where
  trading_period_id : ℕ
  metaapi_account_id : String
  period_type : String
  start_time : ℕ
  status : String
  end_time : Option ℕ
  end_reason : Option String
deriving DecidableEq

/-- A row of `plan_specifications` (threshold columns elided where the two
methods do not read them). -/
structure PlanSpecRow where
  plan_id : ℕ
  phase_number : ℕ
  phase_type : String
deriving DecidableEq

/-- A row of `account_events` as written by `_log_event`: the JSON payload
is represented by its `reason` field. -/
structure EventRow where
  account_id : ℕ
  event_type : String
  reason : String
deriving DecidableEq

/-- The store plus the two observable side channels: events inserted and
streams stopped. -/
structure Db where
  accounts : List AccountRow
  trading_periods : List TradingPeriodRow
  plan_specifications : List PlanSpecRow
  account_events : List EventRow
  stopped_streams : List String
deriving DecidableEq

namespace EvaluationMonitor

/-- The join and WHERE clause of `get_active_accounts` (lines 47-78) for
one candidate row triple. -/
def active_row_matches (a : AccountRow) (tp : TradingPeriodRow) (ps : PlanSpecRow) : Prop :=
  tp.metaapi_account_id = a.metaapi_account_id ∧
  ps.plan_id = a.plan_id ∧
  ((tp.period_type = "phase_1" ∧ ps.phase_number = 1) ∨
   (tp.period_type = "funded" ∧ ps.phase_type = "funded")) ∧
  a.status = "active" ∧ a.is_enabled = true ∧ tp.status = "active" ∧ tp.end_time = none

instance (a : AccountRow) (tp : TradingPeriodRow) (ps : PlanSpecRow) :
    Decidable (active_row_matches a tp ps) := by
  unfold active_row_matches
  infer_instance

/-- `get_active_accounts` (lines 41-82): the accounts-periods-plans join
restricted to enabled active accounts with an open active period. -/
def get_active_accounts (db : Db) : List (AccountRow × TradingPeriodRow × PlanSpecRow) :=
  db.accounts.flatMap (fun a =>
    db.trading_periods.flatMap (fun tp =>
      db.plan_specifications.filterMap (fun ps =>
        if active_row_matches a tp ps then some (a, tp, ps) else none)))

/-- `handle_drawdown_breach` (lines 334-388): fail and disable the
account, close the trading period with reason `drawdown_breach`, stop the
stream and log an `evaluation_failed` event. -/
def handle_drawdown_breach (db : Db) (account_id : ℕ) (metaapi_account_id : String)
    (trading_period_id : ℕ) (now : ℕ) : Db :=
  { accounts := db.accounts.map (fun a =>
      if a.id = account_id then
        { a with status := "failed", is_enabled := false, closed_at := some now }
      else a),
    trading_periods := db.trading_periods.map (fun tp =>
      if tp.trading_period_id = trading_period_id then
        { tp with end_time := some now, end_reason := some "drawdown_breach",
                  status := "failed" }
      else tp),
    plan_specifications := db.plan_specifications,
    account_events := db.account_events ++ [⟨account_id, "evaluation_failed", "drawdown_breach"⟩],
    stopped_streams := db.stopped_streams ++ [metaapi_account_id] }

end EvaluationMonitor

/-- Claim C3: `handle_drawdown_breach` marks the account `failed`,
disabled and closed, ends the trading period with reason
`drawdown_breach` and status `failed`, stops the stream and logs an
event; the marked account then fails the active-accounts filter
(status active AND is_enabled TRUE), so a later check cycle on
unchanged data never sees it again and cannot re-fire the breach. -/
theorem c3_drawdown_breach_finalizes (db : Db) (account_id : ℕ)
    (metaapi_account_id : String) (trading_period_id now : ℕ) :
    (∀ a ∈ (EvaluationMonitor.handle_drawdown_breach db account_id metaapi_account_id
        trading_period_id now).accounts,
      a.id = account_id →
        a.status = "failed" ∧ a.is_enabled = false ∧ a.closed_at = some now) ∧
    (∀ tp ∈ (EvaluationMonitor.handle_drawdown_breach db account_id metaapi_account_id
        trading_period_id now).trading_periods,
      tp.trading_period_id = trading_period_id →
        tp.end_time = some now ∧ tp.end_reason = some "drawdown_breach" ∧
        tp.status = "failed") ∧
    (EvaluationMonitor.handle_drawdown_breach db account_id metaapi_account_id
        trading_period_id now).stopped_streams =
      db.stopped_streams ++ [metaapi_account_id] ∧
    (EvaluationMonitor.handle_drawdown_breach db account_id metaapi_account_id
        trading_period_id now).account_events =
      db.account_events ++ [⟨account_id, "evaluation_failed", "drawdown_breach"⟩] ∧
    (∀ r ∈ EvaluationMonitor.get_active_accounts
        (EvaluationMonitor.handle_drawdown_breach db account_id metaapi_account_id
          trading_period_id now),
      r.1.id ≠ account_id) := by
  refine ⟨?_, ?_, rfl, rfl, ?_⟩
  · intro a ha hid
    rcases List.mem_map.mp ha with ⟨a0, _, hmap⟩
    by_cases h0 : a0.id = account_id
    · rw [if_pos h0] at hmap
      rw [← hmap]
      exact ⟨rfl, rfl, rfl⟩
    · rw [if_neg h0] at hmap
      rw [← hmap] at hid
      exact absurd hid h0
  · intro tp htp hid
    rcases List.mem_map.mp htp with ⟨tp0, _, hmap⟩
    by_cases h0 : tp0.trading_period_id = trading_period_id
    · rw [if_pos h0] at hmap
      rw [← hmap]
      exact ⟨rfl, rfl, rfl⟩
    · rw [if_neg h0] at hmap
      rw [← hmap] at hid
      exact absurd hid h0
  · intro r hr hid
    unfold EvaluationMonitor.get_active_accounts at hr
    rcases List.mem_flatMap.mp hr with ⟨a, ha, hr2⟩
    rcases List.mem_flatMap.mp hr2 with ⟨tp, htp, hr3⟩
    rcases List.mem_filterMap.mp hr3 with ⟨ps, hps, hcond⟩
    by_cases hm : EvaluationMonitor.active_row_matches a tp ps
    · rw [if_pos hm] at hcond
      cases hcond
      have hstatus : a.status = "active" := hm.2.2.2.1
      rcases List.mem_map.mp ha with ⟨a0, _, hmap⟩
      by_cases h0 : a0.id = account_id
      · rw [if_pos h0] at hmap
        rw [← hmap] at hstatus
        simp at hstatus
      · rw [if_neg h0] at hmap
        rw [← hmap] at hid
        exact absurd hid h0
    · rw [if_neg hm] at hcond
      cases hcond

/-- A one-account store: account 1 (`"A"`, plan 5) is active and enabled,
with an open phase-1 period 2 and a matching plan-spec row. -/
def demo_db : Db :=
  { accounts := [⟨1, "A", "active", true, 5, none⟩],
    trading_periods := [⟨2, "A", "phase_1", 0, "active", none, none⟩],
    plan_specifications := [⟨5, 1, "evaluation"⟩],
    account_events := [],
    stopped_streams := [] }

/-- Witness for C3: breaching account 1 in `demo_db` yields a failed,
disabled, closed account row. -/
theorem c3_drawdown_breach_finalizes_witness :
    AccountRow.status ⟨1, "A", "failed", false, 5, some 100⟩ = "failed" ∧
    AccountRow.is_enabled ⟨1, "A", "failed", false, 5, some 100⟩ = false ∧
    AccountRow.closed_at ⟨1, "A", "failed", false, 5, some 100⟩ = some 100 :=
  (c3_drawdown_breach_finalizes demo_db 1 "A" 2 100).1
    ⟨1, "A", "failed", false, 5, some 100⟩ (by decide) rfl

end Veilon
